import Mathlib

/-!
Verification of the sizing core of `xlsx_autofit_columns.py`.

The Python source is shallowly embedded: text is a list of Unicode code
points, Python floats are modelled as exact rationals, worksheets are
records with cell/width/height functions, and code that can raise
(ZeroDivisionError in `adjust_font_size`) returns an `Option`.
-/

set_option maxHeartbeats 1000000

namespace Autofit

/-- Character classes distinguished by `get_char_type` in the source. -/
inductive CharType where
  | ascii
  | cjk
  | emoji
deriving DecidableEq

/-- The CHAR_WIDTH table: ascii 0.7, cjk 2.0, emoji 2.0. -/
def CHAR_WIDTH : CharType → ℚ
  | .ascii => 7 / 10
  | .cjk => 2
  | .emoji => 2

/-- Classification of one code point, from `get_char_type`:
code ≤ 127 is ascii, code > 0x1F000 is emoji, everything else cjk. -/
def get_char_type (code : Nat) : CharType :=
  if code ≤ 127 then .ascii
  else if code > 0x1F000 then .emoji
  else .cjk

/-- Horizontal/vertical alignment plus the wrap flag, as set by the
column pass (`openpyxl.styles.Alignment`). -/
structure Alignment where
  horizontal : String
  vertical : String
  wrap_text : Bool
deriving DecidableEq

/-- A cell font: optional size and optional name. -/
structure Font where
  size : Option ℚ
  name : Option String
deriving DecidableEq

/-- The configuration dictionary of the source (per-invocation options). -/
structure Config where
  width_factor : ℚ
  height_factor : ℚ
  min_width : ℚ
  max_width : ℚ
  min_height : ℚ
  max_height : ℚ
  default_font_size : ℚ
  enable_size_limits : Bool
  enable_font_autofit : Bool
  enable_cell_wrap : Bool
  enable_cell_alignment : Bool
  horizontal_alignment : String
  vertical_alignment : String

/-- DEFAULT_CONFIG from the source. -/
def DEFAULT_CONFIG : Config where
  width_factor := 13 / 10
  height_factor := 13 / 10
  min_width := 8
  max_width := 120
  min_height := 20
  max_height := 409
  default_font_size := 12
  enable_size_limits := true
  enable_font_autofit := false
  enable_cell_wrap := true
  enable_cell_alignment := true
  horizontal_alignment := "center"
  vertical_alignment := "center"

/-- A renderable non-None cell value: a string (list of code points),
an integer, or a boolean. -/
inductive Value where
  | vstr (s : List Nat)
  | vint (n : Int)
  | vbool (b : Bool)
deriving DecidableEq

/-- Python truthiness test used by `if not text`: the empty string,
the integer 0 and False are falsy. -/
def Value.falsy : Value → Bool
  | .vstr s => s.isEmpty
  | .vint n => n == 0
  | .vbool b => !b

/-- Decimal digit code points of a natural number (what `str` renders). -/
def natToCodes (n : Nat) : List Nat :=
  if h : n < 10 then [48 + n]
  else natToCodes (n / 10) ++ [48 + n % 10]
termination_by n
decreasing_by
  exact Nat.div_lt_self (by omega) (by omega)

/-- Code points of `str(value)` for a truthy value. -/
def Value.toText : Value → List Nat
  | .vstr s => s
  | .vint n => if n < 0 then 45 :: natToCodes n.natAbs else natToCodes n.natAbs
  | .vbool b => if b then [84, 114, 117, 101] else [70, 97, 108, 115, 101]

/-- Sum of per-character unit widths of a string (the loop in
`calculate_text_width` before font scaling). -/
def text_units (s : List Nat) : ℚ :=
  (s.map (fun code => CHAR_WIDTH (get_char_type code))).sum

/-- Embedding of `calculate_text_width`: falsy text has width 0, otherwise
the summed unit widths are scaled by `font_size / DEFAULT_CONFIG['default_font_size']`
(the module-level constant, 12). -/
def calculate_text_width (text : Value) (font_size : ℚ) : ℚ :=
  if text.falsy then 0
  else text_units text.toText * (font_size / DEFAULT_CONFIG.default_font_size)

/-- Python `text.split('\n')` on a list of code points (10 is the newline). -/
def splitOnNewline : List Nat → List (List Nat)
  | [] => [[]]
  | code :: rest =>
    match splitOnNewline rest with
    | [] => [[code]]
    | seg :: segs => if code = 10 then [] :: seg :: segs else (code :: seg) :: segs

/-- Python `int()` on a rational: truncation toward zero. -/
def pyInt (q : ℚ) : Int :=
  if 0 ≤ q then Rat.floor q else -(Rat.floor (-q))

/-- The per-segment line count of `calculate_text_height`: an empty segment
counts 1; otherwise, when the column width is positive, the segment width is
divided by 0.9 × column width and rounded up by
`int(x) + (1 if x > int(x) else 0)`, with a floor of one line; a
non-positive column width yields one line. -/
def line_count_for (line : List Nat) (column_width font_size : ℚ) : Int :=
  if line.isEmpty then 1
  else
    let line_width := calculate_text_width (.vstr line) font_size
    if column_width > 0 then
      let effective_width := column_width * (9 / 10)
      let lc := line_width / effective_width
      max 1 (pyInt lc + (if (pyInt lc : ℚ) < lc then 1 else 0))
    else 1

/-- Embedding of `calculate_text_height`: falsy text returns 1; otherwise the
text is split on hard newlines, per-segment line counts are summed, and the
total is scaled by `font_size / 12` with a constant +1 added. -/
def calculate_text_height (text : Value) (column_width font_size : ℚ) : ℚ :=
  if text.falsy then 1
  else
    let lines := splitOnNewline text.toText
    let total_lines : Int := (lines.map (fun l => line_count_for l column_width font_size)).sum
    (total_lines : ℚ) * (font_size / DEFAULT_CONFIG.default_font_size) + 1

/-- Embedding of `calculate_space_utilization`: 1.0 when the container size
is non-positive, otherwise the exact ratio. -/
def calculate_space_utilization (text_size container_size : ℚ) : ℚ :=
  if container_size ≤ 0 then 1
  else text_size / container_size

/-- Embedding of `adjust_font_size` with the source's default factors
min_factor = 0.8 and max_factor = 1.5 (no call site overrides them).
Utilization at least 0.5 returns the size unchanged; utilization exactly 0
makes `1 / utilization` raise ZeroDivisionError, modelled as `none`;
otherwise the size is scaled by `max(0.8, min(1.5, 1 / utilization))`. -/
def adjust_font_size (original_size utilization : ℚ) : Option ℚ :=
  if utilization ≥ 1 / 2 then some original_size
  else if utilization = 0 then none
  else some (original_size * max (8 / 10) (min (3 / 2) (1 / utilization)))

/-- A worksheet cell: optional value, optional font, optional alignment. -/
structure Cell where
  value : Option Value
  font : Option Font
  alignment : Option Alignment
deriving DecidableEq

/-- A worksheet: a grid of cells addressed from (1, 1), plus the per-column
widths and per-row heights the passes write back. -/
structure Worksheet where
  max_row : Nat
  max_col : Nat
  cell : Nat → Nat → Cell
  col_width : Nat → ℚ
  row_height : Nat → ℚ

/-- The `getattr(getattr(cell, 'font', None), 'size', None) or default` pattern:
a missing font, a missing size, or a falsy (zero) size fall back to the
configured default font size. -/
def effective_font_size (cell : Cell) (cfg : Config) : ℚ :=
  match cell.font with
  | none => cfg.default_font_size
  | some f =>
    match f.size with
    | none => cfg.default_font_size
    | some s => if s = 0 then cfg.default_font_size else s

/-- The `getattr(getattr(cell, 'font', None), 'name', None) or 'Arial'` pattern. -/
def font_name_or_default (cell : Cell) : String :=
  match cell.font with
  | none => "Arial"
  | some f =>
    match f.name with
    | none => "Arial"
    | some n => if n = "" then "Arial" else n

/-- Write a column width into the worksheet. -/
def set_col_width (w : Worksheet) (c : Nat) (x : ℚ) : Worksheet :=
  { w with col_width := fun c' => if c' = c then x else w.col_width c' }

/-- Write a row height into the worksheet. -/
def set_row_height (w : Worksheet) (r : Nat) (x : ℚ) : Worksheet :=
  { w with row_height := fun r' => if r' = r then x else w.row_height r' }

/-- Overwrite the font of cell (r, c) with the adjusted size, preserving the
font name (defaulting to Arial), as both passes do on commit. -/
def update_cell_font (w : Worksheet) (r c : Nat) (ns : ℚ) : Worksheet :=
  { w with cell := fun r' c' =>
      if r' = r ∧ c' = c then
        { w.cell r c with font := some ⟨some ns, some (font_name_or_default (w.cell r c))⟩ }
      else w.cell r' c' }

/-- Live read of `calculate_text_width(cell.value, fs)`: a `None` value is
falsy in Python and measures 0. -/
def cell_text_width (w : Worksheet) (r c : Nat) (fs : ℚ) : ℚ :=
  match (w.cell r c).value with
  | none => 0
  | some v => calculate_text_width v fs

/-- One measured non-None cell of a column: its row, value, estimated text
width and resolved font size (the tuples in `cells_in_column`). -/
structure MeasuredCol where
  row : Nat
  val : Value
  tw : ℚ
  fs : ℚ

/-- One measured non-None cell of a row: its column, value, estimated text
height, resolved font size and column width (the tuples in `cells_in_row`). -/
structure MeasuredRow where
  col : Nat
  val : Value
  th : ℚ
  fs : ℚ
  cw : ℚ

/-- The measuring loop of `autofit_columns` for one column: every non-None
cell of rows 1..max_row, with its estimated width and resolved font size. -/
def measure_column (ws : Worksheet) (cfg : Config) (c : Nat) : List MeasuredCol :=
  ((List.range ws.max_row).map (· + 1)).filterMap fun r =>
    match (ws.cell r c).value with
    | none => none
    | some v =>
      let fs := effective_font_size (ws.cell r c) cfg
      some ⟨r, v, calculate_text_width v fs, fs⟩

/-- Running maximum text width of a column (`max_width` in the source,
starting from 0). -/
def column_max_width (ws : Worksheet) (cfg : Config) (c : Nat) : ℚ :=
  ((measure_column ws cfg c).map (·.tw)).foldl max 0

/-- The final column width: the maximum is scaled by `width_factor` and,
when size limits are enabled, clamped into `[min_width, max_width]`. -/
def column_final_width (ws : Worksheet) (cfg : Config) (c : Nat) : ℚ :=
  let adjusted_width := column_max_width ws cfg c * cfg.width_factor
  if cfg.enable_size_limits then max cfg.min_width (min cfg.max_width adjusted_width)
  else adjusted_width

/-- The styling side effect of the column measuring loop: when cell alignment
is enabled, every non-None cell of the column gets the configured alignment
and wrap flag. -/
def style_column (ws : Worksheet) (cfg : Config) (c : Nat) : Worksheet :=
  if cfg.enable_cell_alignment then
    { ws with cell := fun r' c' =>
        if c' = c ∧ 1 ≤ r' ∧ r' ≤ ws.max_row ∧ (ws.cell r' c').value.isSome then
          { ws.cell r' c' with
            alignment := some (Alignment.mk cfg.horizontal_alignment cfg.vertical_alignment cfg.enable_cell_wrap) }
        else ws.cell r' c' }
  else ws

/-- The font-autofit loop of the column pass over the measured cells:
each cell's utilization against the final width yields an adjusted size
(`none` models the ZeroDivisionError); a change larger than 0.1 is committed. -/
def run_font_cells (final_width : ℚ) (c : Nat) :
    List MeasuredCol → Worksheet → Option Worksheet
  | [], w => some w
  | e :: rest, w =>
    match adjust_font_size e.fs (calculate_space_utilization e.tw final_width) with
    | none => none
    | some ns =>
      run_font_cells final_width c rest
        (if |ns - e.fs| > 1 / 10 then update_cell_font w e.row c ns else w)

/-- Processing of one column by `autofit_columns`: measure, style, write the
final width, then optionally run the font-autofit loop. -/
def autofit_one_column (cfg : Config) (c : Nat) (ws : Worksheet) : Option Worksheet :=
  if cfg.enable_font_autofit then
    run_font_cells (column_final_width ws cfg c) c (measure_column ws cfg c)
      (set_col_width (style_column ws cfg c) c (column_final_width ws cfg c))
  else some (set_col_width (style_column ws cfg c) c (column_final_width ws cfg c))

/-- The column loop of `autofit_columns` over a list of column indices. -/
def run_columns (cfg : Config) : List Nat → Worksheet → Option Worksheet
  | [], w => some w
  | c :: rest, w =>
    match autofit_one_column cfg c w with
    | none => none
    | some w' => run_columns cfg rest w'

/-- Embedding of `autofit_columns`: if the worksheet has no data rows the
function returns immediately; otherwise columns 1..max_column are processed
in order. `none` models an uncaught exception. -/
def autofit_columns (ws : Worksheet) (cfg : Config) : Option Worksheet :=
  if ws.max_row = 0 then some ws
  else run_columns cfg ((List.range ws.max_col).map (· + 1)) ws

/-- The measuring loop of `autofit_rows` for one row: every non-None cell of
columns 1..max_column, with its estimated height at the column's width. -/
def measure_row (ws : Worksheet) (cfg : Config) (r : Nat) : List MeasuredRow :=
  ((List.range ws.max_col).map (· + 1)).filterMap fun c =>
    match (ws.cell r c).value with
    | none => none
    | some v =>
      let fs := effective_font_size (ws.cell r c) cfg
      let cw := ws.col_width c
      some ⟨c, v, calculate_text_height v cw fs, fs, cw⟩

/-- Running maximum text height of a row (`max_height` in the source). -/
def row_max_height (ws : Worksheet) (cfg : Config) (r : Nat) : ℚ :=
  ((measure_row ws cfg r).map (·.th)).foldl max 0

/-- The final row height: the maximum is scaled by `height_factor` and by the
unit conversion 15, then clamped into `[min_height, max_height]` when size
limits are enabled. -/
def row_final_height (ws : Worksheet) (cfg : Config) (r : Nat) : ℚ :=
  let adjusted_height := row_max_height ws cfg r * cfg.height_factor * 15
  if cfg.enable_size_limits then max cfg.min_height (min cfg.max_height adjusted_height)
  else adjusted_height

/-- The font-autofit loop of the row pass: the row-based adjustment is only
committed if the re-estimated text width at the new size keeps the width
utilization of the cell's column at or below 0.9. -/
def run_font_row_cells (final_height : ℚ) (r : Nat) :
    List MeasuredRow → Worksheet → Option Worksheet
  | [], w => some w
  | e :: rest, w =>
    match adjust_font_size e.fs (calculate_space_utilization (e.th * 15) final_height) with
    | none => none
    | some ns =>
      run_font_row_cells final_height r rest
        (if |ns - e.fs| > 1 / 10 then
          (if calculate_space_utilization (cell_text_width w r e.col ns) e.cw ≤ 9 / 10 then
            update_cell_font w r e.col ns
          else w)
        else w)

/-- Processing of one row by `autofit_rows`: measure, write the final height,
then optionally run the guarded font-autofit loop. -/
def autofit_one_row (cfg : Config) (r : Nat) (ws : Worksheet) : Option Worksheet :=
  if cfg.enable_font_autofit then
    run_font_row_cells (row_final_height ws cfg r) r (measure_row ws cfg r)
      (set_row_height ws r (row_final_height ws cfg r))
  else some (set_row_height ws r (row_final_height ws cfg r))

/-- The row loop of `autofit_rows` over a list of row indices. -/
def run_rows (cfg : Config) : List Nat → Worksheet → Option Worksheet
  | [], w => some w
  | r :: rest, w =>
    match autofit_one_row cfg r w with
    | none => none
    | some w' => run_rows cfg rest w'

/-- Embedding of `autofit_rows`: rows 1..max_row processed in order;
`none` models an uncaught exception. -/
def autofit_rows (ws : Worksheet) (cfg : Config) : Option Worksheet :=
  run_rows cfg ((List.range ws.max_row).map (· + 1)) ws

lemma rat_floor_eq (q : ℚ) : Rat.floor q = ⌊q⌋ :=
  (Rat.floor_def' q).trans Rat.floor_def.symm

lemma pyInt_eq (q : ℚ) : pyInt q = if 0 ≤ q then ⌊q⌋ else ⌈q⌉ := by
  unfold pyInt
  rcases le_or_lt 0 q with h | h
  · rw [if_pos h, if_pos h, rat_floor_eq]
  · rw [if_neg (not_le.mpr h), if_neg (not_le.mpr h), rat_floor_eq, Int.floor_neg, neg_neg]

/-- The source's `int(x) + (1 if x > int(x) else 0)` rounding is exactly the
ceiling, for every rational (truncation toward zero equals the ceiling on
negative inputs, and floor-plus-indicator equals it on non-negative ones). -/
lemma py_round_up (q : ℚ) : pyInt q + (if (pyInt q : ℚ) < q then 1 else 0) = ⌈q⌉ := by
  rw [pyInt_eq]
  rcases le_or_lt 0 q with h | h
  · rw [if_pos h]
    by_cases hf : (⌊q⌋ : ℚ) < q
    · rw [if_pos hf]
      refine le_antisymm ?_ ?_
      · exact Int.add_one_le_iff.mpr (Int.lt_ceil.mpr hf)
      · rw [Int.ceil_le]
        push_cast
        exact (Int.lt_floor_add_one q).le
    · rw [if_neg hf]
      have hq : (⌊q⌋ : ℚ) = q := le_antisymm (Int.floor_le q) (not_lt.mp hf)
      rw [← hq, Int.ceil_intCast, add_zero, Int.floor_intCast]
  · rw [if_neg (not_le.mpr h), if_neg (not_lt.mpr (Int.le_ceil q)), add_zero]

lemma le_foldl_max (l : List ℚ) : ∀ b : ℚ, b ≤ l.foldl max b := by
  induction l with
  | nil => intro b; simp
  | cons x xs ih =>
    intro b
    calc b ≤ max b x := le_max_left b x
    _ ≤ xs.foldl max (max b x) := ih (max b x)

lemma foldl_max_nonneg (l : List ℚ) : 0 ≤ l.foldl max 0 :=
  le_foldl_max l 0

/-- Dropping elements that map at or below the accumulator does not change a
running maximum. -/
lemma foldl_max_filter {α : Type} (f : α → ℚ) (p : α → Bool) :
    ∀ (l : List α) (b : ℚ), (∀ x ∈ l, p x = false → f x ≤ b) →
      ((l.filter p).map f).foldl max b = (l.map f).foldl max b := by
  intro l
  induction l with
  | nil => intro b _; rfl
  | cons x xs ih =>
    intro b hb
    by_cases hx : p x
    · rw [List.filter_cons_of_pos hx, List.map_cons, List.foldl_cons, List.map_cons,
        List.foldl_cons]
      exact ih (max b (f x)) fun y hy hpy =>
        le_trans (hb y (List.mem_cons_of_mem x hy) hpy) (le_max_left b (f x))
    · rw [List.filter_cons_of_neg (by simpa using hx), List.map_cons, List.foldl_cons]
      have hfx : f x ≤ b := hb x (List.mem_cons_self x xs) (by simpa using hx)
      rw [max_eq_left hfx]
      exact ih b fun y hy hpy => hb y (List.mem_cons_of_mem x hy) hpy

lemma mem_one_to {n c : Nat} : c ∈ (List.range n).map (· + 1) ↔ 1 ≤ c ∧ c ≤ n := by
  simp only [List.mem_map, List.mem_range]
  constructor
  · rintro ⟨i, hi, rfl⟩; omega
  · rintro ⟨h1, h2⟩; exact ⟨c - 1, by omega, by omega⟩

lemma nodup_one_to (n : Nat) : ((List.range n).map (· + 1)).Nodup :=
  (List.nodup_range n).map fun a b h => by omega

lemma set_col_width_cell (w : Worksheet) (c : Nat) (x : ℚ) :
    (set_col_width w c x).cell = w.cell := rfl

lemma set_col_width_at (w : Worksheet) (c : Nat) (x : ℚ) :
    (set_col_width w c x).col_width c = x := by
  simp [set_col_width]

lemma set_col_width_other (w : Worksheet) (c : Nat) (x : ℚ) {c' : Nat} (h : c' ≠ c) :
    (set_col_width w c x).col_width c' = w.col_width c' := by
  simp [set_col_width, h]

lemma set_row_height_cell (w : Worksheet) (r : Nat) (x : ℚ) :
    (set_row_height w r x).cell = w.cell := rfl

lemma update_cell_font_value (w : Worksheet) (r c : Nat) (ns : ℚ) (r' c' : Nat) :
    ((update_cell_font w r c ns).cell r' c').value = (w.cell r' c').value := by
  unfold update_cell_font
  by_cases h : r' = r ∧ c' = c
  · obtain ⟨h1, h2⟩ := h
    subst h1; subst h2
    simp
  · dsimp only
    rw [if_neg h]

lemma update_cell_font_col_width (w : Worksheet) (r c : Nat) (ns : ℚ) :
    (update_cell_font w r c ns).col_width = w.col_width := rfl

lemma update_cell_font_row_height (w : Worksheet) (r c : Nat) (ns : ℚ) :
    (update_cell_font w r c ns).row_height = w.row_height := rfl

lemma update_cell_font_font_other (w : Worksheet) (r c : Nat) (ns : ℚ) {r' c' : Nat}
    (h : ¬(r' = r ∧ c' = c)) :
    ((update_cell_font w r c ns).cell r' c').font = (w.cell r' c').font := by
  simp [update_cell_font, h]

lemma update_cell_font_font_at (w : Worksheet) (r c : Nat) (ns : ℚ) :
    ((update_cell_font w r c ns).cell r c).font =
      some ⟨some ns, some (font_name_or_default (w.cell r c))⟩ := by
  simp [update_cell_font]

lemma style_column_value (ws : Worksheet) (cfg : Config) (c : Nat) (r' c' : Nat) :
    ((style_column ws cfg c).cell r' c').value = (ws.cell r' c').value := by
  unfold style_column
  split
  · dsimp only
    split
    · rfl
    · rfl
  · rfl

lemma style_column_font (ws : Worksheet) (cfg : Config) (c : Nat) (r' c' : Nat) :
    ((style_column ws cfg c).cell r' c').font = (ws.cell r' c').font := by
  unfold style_column
  split
  · dsimp only
    split
    · rfl
    · rfl
  · rfl

lemma style_column_col_width (ws : Worksheet) (cfg : Config) (c : Nat) :
    (style_column ws cfg c).col_width = ws.col_width := by
  unfold style_column
  split <;> rfl

lemma style_column_row_height (ws : Worksheet) (cfg : Config) (c : Nat) :
    (style_column ws cfg c).row_height = ws.row_height := by
  unfold style_column
  split <;> rfl

lemma style_column_max_row (ws : Worksheet) (cfg : Config) (c : Nat) :
    (style_column ws cfg c).max_row = ws.max_row := by
  unfold style_column
  split <;> rfl

lemma style_column_max_col (ws : Worksheet) (cfg : Config) (c : Nat) :
    (style_column ws cfg c).max_col = ws.max_col := by
  unfold style_column
  split <;> rfl

lemma measure_column_mem {ws : Worksheet} {cfg : Config} {c : Nat} {e : MeasuredCol}
    (h : e ∈ measure_column ws cfg c) :
    (ws.cell e.row c).value = some e.val ∧
    e.fs = effective_font_size (ws.cell e.row c) cfg ∧
    e.tw = calculate_text_width e.val e.fs ∧
    1 ≤ e.row ∧ e.row ≤ ws.max_row := by
  unfold measure_column at h
  obtain ⟨r, hr, he⟩ := List.mem_filterMap.mp h
  obtain ⟨hr1, hr2⟩ := mem_one_to.mp hr
  rcases hv : (ws.cell r c).value with _ | v
  · rw [hv] at he; exact absurd he (by simp)
  · rw [hv] at he
    simp only [Option.some_inj] at he
    subst he
    exact ⟨hv, rfl, rfl, hr1, hr2⟩

lemma measure_row_mem {ws : Worksheet} {cfg : Config} {r : Nat} {e : MeasuredRow}
    (h : e ∈ measure_row ws cfg r) :
    (ws.cell r e.col).value = some e.val ∧
    e.fs = effective_font_size (ws.cell r e.col) cfg ∧
    e.th = calculate_text_height e.val e.cw e.fs ∧
    e.cw = ws.col_width e.col ∧
    1 ≤ e.col ∧ e.col ≤ ws.max_col := by
  unfold measure_row at h
  obtain ⟨c, hc, he⟩ := List.mem_filterMap.mp h
  obtain ⟨hc1, hc2⟩ := mem_one_to.mp hc
  rcases hv : (ws.cell r c).value with _ | v
  · rw [hv] at he; exact absurd he (by simp)
  · rw [hv] at he
    simp only [Option.some_inj] at he
    subst he
    exact ⟨hv, rfl, rfl, rfl, hc1, hc2⟩

lemma set_row_height_at (w : Worksheet) (r : Nat) (x : ℚ) :
    (set_row_height w r x).row_height r = x := by
  simp [set_row_height]

lemma set_row_height_other (w : Worksheet) (r : Nat) (x : ℚ) {r' : Nat} (h : r' ≠ r) :
    (set_row_height w r x).row_height r' = w.row_height r' := by
  simp [set_row_height, h]

lemma set_row_height_col_width (w : Worksheet) (r : Nat) (x : ℚ) :
    (set_row_height w r x).col_width = w.col_width := rfl

/-- Shape of every column width the pass writes: a non-negative measured
maximum, scaled by the width factor, clamped only when limits are enabled. -/
def width_spec (cfg : Config) (x : ℚ) : Prop :=
  ∃ m : ℚ, 0 ≤ m ∧
    x = (if cfg.enable_size_limits then
          max cfg.min_width (min cfg.max_width (m * cfg.width_factor))
        else m * cfg.width_factor)

/-- Shape of every row height the pass writes: a non-negative measured
maximum, scaled by the height factor and the unit conversion 15, clamped
only when limits are enabled. -/
def height_spec (cfg : Config) (x : ℚ) : Prop :=
  ∃ m : ℚ, 0 ≤ m ∧
    x = (if cfg.enable_size_limits then
          max cfg.min_height (min cfg.max_height (m * cfg.height_factor * 15))
        else m * cfg.height_factor * 15)

lemma column_final_width_spec (ws : Worksheet) (cfg : Config) (c : Nat) :
    width_spec cfg (column_final_width ws cfg c) :=
  ⟨column_max_width ws cfg c, foldl_max_nonneg _, rfl⟩

lemma row_final_height_spec (ws : Worksheet) (cfg : Config) (r : Nat) :
    height_spec cfg (row_final_height ws cfg r) :=
  ⟨row_max_height ws cfg r, foldl_max_nonneg _, rfl⟩

lemma run_font_cells_pres {fw : ℚ} {c : Nat} :
    ∀ (es : List MeasuredCol) (w w' : Worksheet),
      run_font_cells fw c es w = some w' →
      w'.col_width = w.col_width ∧
      (∀ r' c', ((w'.cell r' c').value = (w.cell r' c').value)) ∧
      w'.max_row = w.max_row ∧ w'.max_col = w.max_col ∧
      w'.row_height = w.row_height := by
  intro es
  induction es with
  | nil =>
    intro w w' h
    obtain rfl : w = w' := Option.some_inj.mp h
    exact ⟨rfl, fun _ _ => rfl, rfl, rfl, rfl⟩
  | cons e rest ih =>
    intro w w' h
    rw [run_font_cells] at h
    rcases hadj : adjust_font_size e.fs (calculate_space_utilization e.tw fw) with _ | ns
    · rw [hadj] at h; exact absurd h (by simp)
    · rw [hadj] at h
      dsimp only at h
      by_cases hd : |ns - e.fs| > 1 / 10
      · rw [if_pos hd] at h
        obtain ⟨h1, h2, h3, h4, h5⟩ := ih _ _ h
        refine ⟨h1.trans (update_cell_font_col_width w e.row c ns), ?_, h3, h4,
          h5.trans (update_cell_font_row_height w e.row c ns)⟩
        intro r' c'
        exact (h2 r' c').trans (update_cell_font_value w e.row c ns r' c')
      · rw [if_neg hd] at h
        exact ih _ _ h

lemma run_font_row_cells_pres {fh : ℚ} {r : Nat} :
    ∀ (es : List MeasuredRow) (w w' : Worksheet),
      run_font_row_cells fh r es w = some w' →
      w'.col_width = w.col_width ∧
      (∀ r' c', ((w'.cell r' c').value = (w.cell r' c').value)) ∧
      w'.max_row = w.max_row ∧ w'.max_col = w.max_col ∧
      w'.row_height = w.row_height := by
  intro es
  induction es with
  | nil =>
    intro w w' h
    obtain rfl : w = w' := Option.some_inj.mp h
    exact ⟨rfl, fun _ _ => rfl, rfl, rfl, rfl⟩
  | cons e rest ih =>
    intro w w' h
    rw [run_font_row_cells] at h
    rcases hadj : adjust_font_size e.fs (calculate_space_utilization (e.th * 15) fh) with _ | ns
    · rw [hadj] at h; exact absurd h (by simp)
    · rw [hadj] at h
      dsimp only at h
      by_cases hd : |ns - e.fs| > 1 / 10
      · rw [if_pos hd] at h
        by_cases hg : calculate_space_utilization (cell_text_width w r e.col ns) e.cw ≤ 9 / 10
        · rw [if_pos hg] at h
          obtain ⟨h1, h2, h3, h4, h5⟩ := ih _ _ h
          refine ⟨h1.trans (update_cell_font_col_width w r e.col ns), ?_, h3, h4,
            h5.trans (update_cell_font_row_height w r e.col ns)⟩
          intro r' c'
          exact (h2 r' c').trans (update_cell_font_value w r e.col ns r' c')
        · rw [if_neg hg] at h
          exact ih _ _ h
      · rw [if_neg hd] at h
        exact ih _ _ h

lemma autofit_one_column_width {cfg : Config} {c : Nat} {ws w' : Worksheet}
    (h : autofit_one_column cfg c ws = some w') :
    w'.col_width c = column_final_width ws cfg c ∧
    ∀ c', c' ≠ c → w'.col_width c' = ws.col_width c' := by
  unfold autofit_one_column at h
  by_cases hfa : cfg.enable_font_autofit = true
  · rw [if_pos hfa] at h
    obtain ⟨hcw, -, -, -, -⟩ := run_font_cells_pres _ _ _ h
    rw [hcw]
    constructor
    · rw [set_col_width_at]
    · intro c' hc'
      rw [set_col_width_other _ _ _ hc', style_column_col_width]
  · rw [if_neg hfa] at h
    obtain rfl := Option.some_inj.mp h
    constructor
    · rw [set_col_width_at]
    · intro c' hc'
      rw [set_col_width_other _ _ _ hc', style_column_col_width]

lemma autofit_one_row_height {cfg : Config} {r : Nat} {ws w' : Worksheet}
    (h : autofit_one_row cfg r ws = some w') :
    w'.row_height r = row_final_height ws cfg r ∧
    ∀ r', r' ≠ r → w'.row_height r' = ws.row_height r' := by
  unfold autofit_one_row at h
  by_cases hfa : cfg.enable_font_autofit = true
  · rw [if_pos hfa] at h
    obtain ⟨-, -, -, -, hrh⟩ := run_font_row_cells_pres _ _ _ h
    rw [hrh]
    constructor
    · rw [set_row_height_at]
    · intro r' hr'
      rw [set_row_height_other _ _ _ hr']
  · rw [if_neg hfa] at h
    obtain rfl := Option.some_inj.mp h
    constructor
    · rw [set_row_height_at]
    · intro r' hr'
      rw [set_row_height_other _ _ _ hr']

lemma run_columns_width (cfg : Config) :
    ∀ (L : List Nat) (w w' : Worksheet), run_columns cfg L w = some w' →
      (∀ c, c ∉ L → w'.col_width c = w.col_width c) ∧
      (∀ c ∈ L, width_spec cfg (w'.col_width c)) := by
  intro L
  induction L with
  | nil =>
    intro w w' h
    obtain rfl : w = w' := Option.some_inj.mp h
    exact ⟨fun _ _ => rfl, fun c hc => absurd hc (List.not_mem_nil c)⟩
  | cons c rest ih =>
    intro w w' h
    rw [run_columns] at h
    rcases hc : autofit_one_column cfg c w with _ | wc
    · rw [hc] at h; exact absurd h (by simp)
    · rw [hc] at h
      obtain ⟨ihpres, ihspec⟩ := ih _ _ h
      obtain ⟨hat, hother⟩ := autofit_one_column_width hc
      constructor
      · intro c' hc'
        have h1 : c' ≠ c := fun hh => hc' (hh ▸ List.mem_cons_self c rest)
        have h2 : c' ∉ rest := fun hh => hc' (List.mem_cons_of_mem c hh)
        rw [ihpres c' h2, hother c' h1]
      · intro c' hc'
        rcases List.mem_cons.mp hc' with rfl | hmem
        · by_cases hin : c' ∈ rest
          · exact ihspec c' hin
          · rw [ihpres c' hin, hat]
            exact column_final_width_spec w cfg c'
        · exact ihspec c' hmem

lemma run_rows_height (cfg : Config) :
    ∀ (L : List Nat) (w w' : Worksheet), run_rows cfg L w = some w' →
      (∀ r, r ∉ L → w'.row_height r = w.row_height r) ∧
      (∀ r ∈ L, height_spec cfg (w'.row_height r)) := by
  intro L
  induction L with
  | nil =>
    intro w w' h
    obtain rfl : w = w' := Option.some_inj.mp h
    exact ⟨fun _ _ => rfl, fun r hr => absurd hr (List.not_mem_nil r)⟩
  | cons r rest ih =>
    intro w w' h
    rw [run_rows] at h
    rcases hr : autofit_one_row cfg r w with _ | wr
    · rw [hr] at h; exact absurd h (by simp)
    · rw [hr] at h
      obtain ⟨ihpres, ihspec⟩ := ih _ _ h
      obtain ⟨hat, hother⟩ := autofit_one_row_height hr
      constructor
      · intro r' hr'
        have h1 : r' ≠ r := fun hh => hr' (hh ▸ List.mem_cons_self r rest)
        have h2 : r' ∉ rest := fun hh => hr' (List.mem_cons_of_mem r hh)
        rw [ihpres r' h2, hother r' h1]
      · intro r' hr'
        rcases List.mem_cons.mp hr' with rfl | hmem
        · by_cases hin : r' ∈ rest
          · exact ihspec r' hin
          · rw [ihpres r' hin, hat]
            exact row_final_height_spec w cfg r'
        · exact ihspec r' hmem

/-- Two worksheets that agree on everything the measuring loop reads:
dimensions, cell values and cell fonts. -/
def MeasEq (w w' : Worksheet) : Prop :=
  w'.max_row = w.max_row ∧ w'.max_col = w.max_col ∧
  (∀ r c, (w'.cell r c).value = (w.cell r c).value) ∧
  (∀ r c, (w'.cell r c).font = (w.cell r c).font)

lemma MeasEq.rfl (w : Worksheet) : MeasEq w w :=
  ⟨Eq.refl _, Eq.refl _, fun _ _ => Eq.refl _, fun _ _ => Eq.refl _⟩

lemma MeasEq.trans {w1 w2 w3 : Worksheet} (h12 : MeasEq w1 w2) (h23 : MeasEq w2 w3) :
    MeasEq w1 w3 :=
  ⟨h23.1.trans h12.1, h23.2.1.trans h12.2.1,
   fun r c => (h23.2.2.1 r c).trans (h12.2.2.1 r c),
   fun r c => (h23.2.2.2 r c).trans (h12.2.2.2 r c)⟩

lemma effective_font_size_congr {a b : Cell} (h : a.font = b.font) (cfg : Config) :
    effective_font_size a cfg = effective_font_size b cfg := by
  unfold effective_font_size
  rw [h]

lemma measure_column_congr {w w' : Worksheet} (h : MeasEq w w') (cfg : Config) (c : Nat) :
    measure_column w' cfg c = measure_column w cfg c := by
  unfold measure_column
  rw [h.1]
  refine congrFun (congrArg List.filterMap (funext fun r => ?_)) _
  rw [h.2.2.1 r c]
  rcases (w.cell r c).value with _ | v
  · rfl
  · dsimp only
    rw [effective_font_size_congr (h.2.2.2 r c) cfg]

lemma column_final_width_congr {w w' : Worksheet} (h : MeasEq w w') (cfg : Config) (c : Nat) :
    column_final_width w' cfg c = column_final_width w cfg c := by
  unfold column_final_width column_max_width
  rw [measure_column_congr h cfg c]

lemma style_column_meas (ws : Worksheet) (cfg : Config) (c : Nat) :
    MeasEq ws (style_column ws cfg c) :=
  ⟨style_column_max_row ws cfg c, style_column_max_col ws cfg c,
   fun r' c' => style_column_value ws cfg c r' c',
   fun r' c' => style_column_font ws cfg c r' c'⟩

lemma set_col_width_meas (w : Worksheet) (c : Nat) (x : ℚ) :
    MeasEq w (set_col_width w c x) :=
  ⟨Eq.refl _, Eq.refl _, fun _ _ => Eq.refl _, fun _ _ => Eq.refl _⟩

/-- With font autofit disabled, one column step only styles cells and writes
the column width: everything the measuring loop reads is untouched. -/
lemma autofit_one_column_no_autofit {cfg : Config} (hfa : cfg.enable_font_autofit = false)
    (c : Nat) (ws : Worksheet) :
    autofit_one_column cfg c ws =
      some (set_col_width (style_column ws cfg c) c (column_final_width ws cfg c)) := by
  unfold autofit_one_column
  rw [if_neg (by rw [hfa]; exact Bool.false_ne_true)]

lemma run_columns_meas (cfg : Config) (hfa : cfg.enable_font_autofit = false) :
    ∀ (L : List Nat) (w w' : Worksheet), run_columns cfg L w = some w' →
      MeasEq w w' ∧
      (∀ c, c ∉ L → w'.col_width c = w.col_width c) ∧
      (L.Nodup → ∀ c ∈ L, w'.col_width c = column_final_width w cfg c) := by
  intro L
  induction L with
  | nil =>
    intro w w' h
    obtain rfl : w = w' := Option.some_inj.mp h
    exact ⟨MeasEq.rfl w, fun _ _ => Eq.refl _, fun _ c hc => absurd hc (List.not_mem_nil c)⟩
  | cons c rest ih =>
    intro w w' h
    rw [run_columns, autofit_one_column_no_autofit hfa] at h
    set wc := set_col_width (style_column w cfg c) c (column_final_width w cfg c) with hwc
    have hmeas : MeasEq w wc :=
      (style_column_meas w cfg c).trans (set_col_width_meas _ c _)
    obtain ⟨ihm, ihpres, ihval⟩ := ih wc w' h
    refine ⟨hmeas.trans ihm, ?_, ?_⟩
    · intro c' hc'
      have h1 : c' ≠ c := fun hh => hc' (hh ▸ List.mem_cons_self c rest)
      have h2 : c' ∉ rest := fun hh => hc' (List.mem_cons_of_mem c hh)
      rw [ihpres c' h2, hwc, set_col_width_other _ _ _ h1, style_column_col_width]
    · intro hnd c' hc'
      obtain ⟨hnotin, hndrest⟩ := List.nodup_cons.mp hnd
      rcases List.mem_cons.mp hc' with rfl | hmem
      · rw [ihpres c' hnotin, hwc, set_col_width_at]
      · rw [ihval hndrest c' hmem, column_final_width_congr hmeas cfg c']

/-- What the row pass guarantees about a committed font change at (r, c),
relative to a base worksheet: the new font carries an explicit size at which
the cell's text re-measures to at most 0.9 of the cell's column width. -/
def font_guard (ws0 : Worksheet) (r c : Nat) (f : Option Font) : Prop :=
  ∃ ns nm v, f = some ⟨some ns, nm⟩ ∧ (ws0.cell r c).value = some v ∧
    calculate_text_width v ns ≤ 9 / 10 * ws0.col_width c

lemma font_guard_congr {w w2 : Worksheet} {r c : Nat} {f : Option Font}
    (hval : (w2.cell r c).value = (w.cell r c).value)
    (hcw : w2.col_width c = w.col_width c)
    (h : font_guard w2 r c f) : font_guard w r c f := by
  obtain ⟨ns, nm, v, h1, h2, h3⟩ := h
  exact ⟨ns, nm, v, h1, hval.symm.trans h2, by rw [← hcw]; exact h3⟩

lemma run_font_row_cells_guard {fh : ℚ} {r : Nat} :
    ∀ (es : List MeasuredRow) (w w' : Worksheet),
      run_font_row_cells fh r es w = some w' →
      (∀ e ∈ es, (w.cell r e.col).value = some e.val ∧ w.col_width e.col = e.cw) →
      ∀ r' c', (w'.cell r' c').font ≠ (w.cell r' c').font →
        font_guard w r' c' ((w'.cell r' c').font) := by
  intro es
  induction es with
  | nil =>
    intro w w' h _
    obtain rfl : w = w' := Option.some_inj.mp h
    intro r' c' hne
    exact absurd (Eq.refl _) hne
  | cons e rest ih =>
    intro w w' h hes
    rw [run_font_row_cells] at h
    rcases hadj : adjust_font_size e.fs (calculate_space_utilization (e.th * 15) fh) with _ | ns
    · rw [hadj] at h; exact absurd h (by simp)
    · rw [hadj] at h
      dsimp only at h
      have hrest : ∀ x ∈ rest, (w.cell r x.col).value = some x.val ∧ w.col_width x.col = x.cw :=
        fun x hx => hes x (List.mem_cons_of_mem e hx)
      by_cases hd : |ns - e.fs| > 1 / 10
      · rw [if_pos hd] at h
        by_cases hg : calculate_space_utilization (cell_text_width w r e.col ns) e.cw ≤ 9 / 10
        · rw [if_pos hg] at h
          obtain ⟨hev, hecw⟩ := hes e (List.mem_cons_self e rest)
          have hval2 : ∀ r' c',
              ((update_cell_font w r e.col ns).cell r' c').value = (w.cell r' c').value :=
            update_cell_font_value w r e.col ns
          have hcw2 : (update_cell_font w r e.col ns).col_width = w.col_width := rfl
          have hes2 : ∀ x ∈ rest,
              ((update_cell_font w r e.col ns).cell r x.col).value = some x.val ∧
              (update_cell_font w r e.col ns).col_width x.col = x.cw := by
            intro x hx
            obtain ⟨hxv, hxc⟩ := hrest x hx
            exact ⟨(hval2 r x.col).trans hxv, hxc⟩
          have hguard2 : ∀ r' c',
              ((update_cell_font w r e.col ns).cell r' c').font ≠ (w.cell r' c').font →
              font_guard w r' c' (((update_cell_font w r e.col ns).cell r' c').font) := by
            intro r' c' hne
            by_cases hat : r' = r ∧ c' = e.col
            · obtain ⟨h1, h2⟩ := hat
              rw [h1, h2, update_cell_font_font_at]
              refine ⟨ns, some (font_name_or_default (w.cell r e.col)), e.val, Eq.refl _, hev, ?_⟩
              have hctw : cell_text_width w r e.col ns = calculate_text_width e.val ns := by
                unfold cell_text_width
                rw [hev]
              rw [hctw] at hg
              unfold calculate_space_utilization at hg
              by_cases hcw0 : e.cw ≤ 0
              · rw [if_pos hcw0] at hg; norm_num at hg
              · rw [if_neg hcw0] at hg
                have hpos : 0 < e.cw := lt_of_not_le hcw0
                have hb := (div_le_iff₀ hpos).mp hg
                rw [hecw]
                linarith
            · exact absurd (update_cell_font_font_other w r e.col ns hat) hne
          intro r' c' hne
          by_cases hmid :
              (w'.cell r' c').font = ((update_cell_font w r e.col ns).cell r' c').font
          · have hstep : ((update_cell_font w r e.col ns).cell r' c').font ≠
                (w.cell r' c').font := by
              rw [← hmid]; exact hne
            have := hguard2 r' c' hstep
            rw [hmid]
            exact this
          · exact font_guard_congr (hval2 r' c') (congrFun hcw2 c') (ih _ _ h hes2 r' c' hmid)
        · rw [if_neg hg] at h
          exact ih _ _ h hrest
      · rw [if_neg hd] at h
        exact ih _ _ h hrest

lemma autofit_one_row_guard {cfg : Config} {r : Nat} {ws w' : Worksheet}
    (h : autofit_one_row cfg r ws = some w') :
    (∀ r' c', (w'.cell r' c').value = (ws.cell r' c').value) ∧
    w'.col_width = ws.col_width ∧
    (∀ r' c', (w'.cell r' c').font ≠ (ws.cell r' c').font →
      font_guard ws r' c' ((w'.cell r' c').font)) := by
  unfold autofit_one_row at h
  by_cases hfa : cfg.enable_font_autofit = true
  · rw [if_pos hfa] at h
    obtain ⟨hcw, hval, -, -, -⟩ := run_font_row_cells_pres _ _ _ h
    have hes : ∀ e ∈ measure_row ws cfg r,
        ((set_row_height ws r (row_final_height ws cfg r)).cell r e.col).value = some e.val ∧
        (set_row_height ws r (row_final_height ws cfg r)).col_width e.col = e.cw := by
      intro e he
      obtain ⟨hv, -, -, hcw', -, -⟩ := measure_row_mem he
      exact ⟨hv, hcw'.symm⟩
    have hguard := run_font_row_cells_guard _ _ _ h hes
    exact ⟨hval, hcw, hguard⟩
  · rw [if_neg hfa] at h
    obtain rfl := Option.some_inj.mp h
    exact ⟨fun _ _ => Eq.refl _, Eq.refl _, fun r' c' hne => absurd (Eq.refl _) hne⟩

lemma run_rows_guard (cfg : Config) :
    ∀ (L : List Nat) (w w' : Worksheet), run_rows cfg L w = some w' →
      (∀ r' c', (w'.cell r' c').value = (w.cell r' c').value) ∧
      w'.col_width = w.col_width ∧
      (∀ r' c', (w'.cell r' c').font ≠ (w.cell r' c').font →
        font_guard w r' c' ((w'.cell r' c').font)) := by
  intro L
  induction L with
  | nil =>
    intro w w' h
    obtain rfl : w = w' := Option.some_inj.mp h
    exact ⟨fun _ _ => Eq.refl _, Eq.refl _, fun r' c' hne => absurd (Eq.refl _) hne⟩
  | cons r rest ih =>
    intro w w' h
    rw [run_rows] at h
    rcases hr : autofit_one_row cfg r w with _ | wr
    · rw [hr] at h; exact absurd h (by simp)
    · rw [hr] at h
      obtain ⟨sval, scw, sguard⟩ := autofit_one_row_guard hr
      obtain ⟨ival, icw, iguard⟩ := ih _ _ h
      refine ⟨fun r' c' => (ival r' c').trans (sval r' c'), icw.trans scw, ?_⟩
      intro r' c' hne
      by_cases hmid : (w'.cell r' c').font = (wr.cell r' c').font
      · have hstep : (wr.cell r' c').font ≠ (w.cell r' c').font := by
          rw [← hmid]; exact hne
        have := sguard r' c' hstep
        rw [hmid]
        exact this
      · exact font_guard_congr (sval r' c') (congrFun scw c') (iguard r' c' hmid)

/-- The per-segment line count, rewritten with a true ceiling: the source's
`int(x) + (1 if x > int(x) else 0)` is exactly `⌈x⌉`. -/
lemma line_count_for_eq (l : List Nat) (column_width font_size : ℚ) :
    line_count_for l column_width font_size =
      (if l.isEmpty then 1
       else if column_width > 0 then
         max 1 ⌈calculate_text_width (.vstr l) font_size / (column_width * (9 / 10))⌉
       else 1) := by
  unfold line_count_for
  by_cases he : l.isEmpty = true
  · rw [if_pos he, if_pos he]
  · rw [if_neg he, if_neg he]
    by_cases hc : column_width > 0
    · rw [if_pos hc, if_pos hc]
      dsimp only
      rw [py_round_up]
    · rw [if_neg hc, if_neg hc]

/-- Total wrapped line count of a text, stated as the spec describes it:
split on hard newlines, one line per empty segment, non-empty segments
rounded up against 0.9 of the column width with a floor of one line. -/
def spec_total_lines (text : List Nat) (column_width font_size : ℚ) : Int :=
  ((splitOnNewline text).map fun l =>
    if l.isEmpty then 1
    else if column_width > 0 then
      max 1 ⌈calculate_text_width (.vstr l) font_size / (column_width * (9 / 10))⌉
    else 1).sum

/-- C2, counterexample: the claim's formula `lines × (fs/dfs) + 1` predicts 2
for the empty string at the default font size (its pre-scaling line count is
exactly 1), but `calculate_text_height` returns 1 for every falsy text. -/
theorem C2_empty_text_cex :
    calculate_text_height (.vstr []) 10 12 = 1 ∧
    (spec_total_lines (Value.toText (.vstr [])) 10 12 : ℚ) *
      (12 / DEFAULT_CONFIG.default_font_size) + 1 = 2 ∧
    (1 : ℚ) ≠ 2 := by
  refine ⟨?_, ?_, by norm_num⟩
  · simp [calculate_text_height, Value.falsy]
  · have h1 : spec_total_lines (Value.toText (.vstr [])) 10 12 = 1 := by
      rw [spec_total_lines]
      dsimp [Value.toText, splitOnNewline]
    rw [h1]
    norm_num [DEFAULT_CONFIG]

/-- C2, amended: for every truthy (non-falsy) text the height equals the
total wrapped line count times `font_size / default_font_size` plus 1; a
falsy text (in particular the empty string) instead returns exactly 1,
without the scaling or the +1 padding term. -/
theorem C2_height_formula (text : Value) (column_width font_size : ℚ)
    (ht : text.falsy = false) :
    calculate_text_height text column_width font_size =
      (spec_total_lines text.toText column_width font_size : ℚ) *
        (font_size / DEFAULT_CONFIG.default_font_size) + 1 ∧
    calculate_text_height (.vstr []) column_width font_size = 1 := by
  constructor
  · rw [calculate_text_height, if_neg (by rw [ht]; exact Bool.false_ne_true)]
    dsimp only
    rw [spec_total_lines]
    have hfun : (fun l => line_count_for l column_width font_size) =
        (fun l : List Nat =>
          if l.isEmpty then 1
          else if column_width > 0 then
            max 1 ⌈calculate_text_width (.vstr l) font_size / (column_width * (9 / 10))⌉
          else (1 : Int)) :=
      funext fun l => line_count_for_eq l column_width font_size
    rw [hfun]
  · simp [calculate_text_height, Value.falsy]

/-- C2, witness: the amended formula applied to the one-character string "A". -/
theorem C2_height_formula_witness :
    Value.falsy (.vstr [65]) = false ∧
    (calculate_text_height (.vstr [65]) 10 12 =
      (spec_total_lines (Value.toText (.vstr [65])) 10 12 : ℚ) *
        (12 / DEFAULT_CONFIG.default_font_size) + 1 ∧
     calculate_text_height (.vstr []) 10 12 = 1) :=
  ⟨Eq.refl _, C2_height_formula (.vstr [65]) 10 12 (Eq.refl _)⟩

/-- The width estimate as claim C3 states it: unit widths scaled by
`font_size / config.default_font_size`, with the per-invocation
configuration value as the divisor. -/
def claimed_text_width (text : Value) (font_size : ℚ) (cfg : Config) : ℚ :=
  if text.falsy then 0
  else text_units text.toText * (font_size / cfg.default_font_size)

/-- A configuration whose default font size differs from the module
constant 12. -/
def cfg24 : Config :=
  { DEFAULT_CONFIG with default_font_size := 24 }

/-- A one-cell worksheet holding the string "A" with no explicit font. -/
def ws_A : Worksheet where
  max_row := 1
  max_col := 1
  cell := fun r c =>
    if r = 1 ∧ c = 1 then ⟨some (.vstr [65]), none, none⟩ else ⟨none, none, none⟩
  col_width := fun _ => 0
  row_height := fun _ => 0

/-- C3, counterexample: with `default_font_size = 24` in the configuration,
the column pass measures "A" (no explicit font, so effective size 24) at
width 0.7 × 24/12 = 1.4 — the scaling divisor is the module constant 12 —
while the claim's formula 0.7 × 24/24 predicts 0.7. -/
theorem C3_config_scaling_cex :
    measure_column ws_A cfg24 1 = [⟨1, .vstr [65], 7 / 5, 24⟩] ∧
    claimed_text_width (.vstr [65]) 24 cfg24 = 7 / 10 ∧
    (7 / 5 : ℚ) ≠ 7 / 10 := by
  refine ⟨?_, ?_, by norm_num⟩
  · simp only [measure_column, ws_A, cfg24, DEFAULT_CONFIG, List.range, List.range.loop,
      List.map, List.filterMap, effective_font_size]
    norm_num [calculate_text_width, Value.falsy, Value.toText, text_units, get_char_type,
      CHAR_WIDTH, DEFAULT_CONFIG]
  · norm_num [claimed_text_width, Value.falsy, Value.toText, text_units, get_char_type,
      CHAR_WIDTH, cfg24, DEFAULT_CONFIG]

/-- C3, amended: the width measured by the sizing pass equals the claim's
formula exactly when the per-invocation `default_font_size` coincides with
the module-level constant 12 that `calculate_text_width` actually divides by. -/
theorem C3_width_scaling (ws : Worksheet) (cfg : Config) (c : Nat) (e : MeasuredCol)
    (hdfs : cfg.default_font_size = DEFAULT_CONFIG.default_font_size)
    (he : e ∈ measure_column ws cfg c) :
    e.tw = claimed_text_width e.val e.fs cfg := by
  obtain ⟨-, -, htw, -, -⟩ := measure_column_mem he
  rw [htw, calculate_text_width, claimed_text_width, hdfs]

/-- C3, witness: under the default configuration (default font size 12),
the measured width of "A" matches the claim's formula. -/
theorem C3_width_scaling_witness :
    DEFAULT_CONFIG.default_font_size = DEFAULT_CONFIG.default_font_size ∧
    (⟨1, .vstr [65], 7 / 10, 12⟩ : MeasuredCol) ∈ measure_column ws_A DEFAULT_CONFIG 1 ∧
    (⟨1, .vstr [65], 7 / 10, 12⟩ : MeasuredCol).tw =
      claimed_text_width (.vstr [65]) 12 DEFAULT_CONFIG := by
  have hmem : measure_column ws_A DEFAULT_CONFIG 1 = [⟨1, .vstr [65], 7 / 10, 12⟩] := by
    simp only [measure_column, ws_A, DEFAULT_CONFIG, List.range, List.range.loop,
      List.map, List.filterMap, effective_font_size]
    norm_num [calculate_text_width, Value.falsy, Value.toText, text_units, get_char_type,
      CHAR_WIDTH, DEFAULT_CONFIG]
  have hin : (⟨1, .vstr [65], 7 / 10, 12⟩ : MeasuredCol) ∈ measure_column ws_A DEFAULT_CONFIG 1 := by
    rw [hmem]
    exact List.mem_singleton.mpr (Eq.refl _)
  exact ⟨Eq.refl _, hin, C3_width_scaling ws_A DEFAULT_CONFIG 1 _ (Eq.refl _) hin⟩

/-- C4: the font-size feedback moves in both directions over its input
domain — utilization 1/4 grows the size by the capped factor 1.5, while a
negative utilization makes `1/utilization` negative and the clamp bottoms
out at 0.8, shrinking the size. -/
theorem C4_adjust_both_directions :
    (∃ os u y, adjust_font_size os u = some y ∧ y < os) ∧
    (∃ os u y, adjust_font_size os u = some y ∧ os < y) := by
  constructor
  · exact ⟨12, -1, 48 / 5, by norm_num [adjust_font_size], by norm_num⟩
  · exact ⟨12, 1 / 4, 18, by norm_num [adjust_font_size], by norm_num⟩

/-- C9: doubling the font size from the default doubles the estimated text
width, for every value. -/
theorem C9_linear_font_scaling (text : Value) :
    calculate_text_width text (2 * DEFAULT_CONFIG.default_font_size) =
      2 * calculate_text_width text DEFAULT_CONFIG.default_font_size := by
  rw [calculate_text_width, calculate_text_width]
  by_cases hf : text.falsy = true
  · rw [if_pos hf, if_pos hf]
    norm_num
  · rw [if_neg hf, if_neg hf]
    have h12 : DEFAULT_CONFIG.default_font_size = 12 := Eq.refl _
    rw [h12]
    ring_nf

/-- A one-cell worksheet holding the integer 0 (non-None but falsy). -/
def ws_zero : Worksheet where
  max_row := 1
  max_col := 1
  cell := fun r c =>
    if r = 1 ∧ c = 1 then ⟨some (.vint 0), none, none⟩ else ⟨none, none, none⟩
  col_width := fun _ => 0
  row_height := fun _ => 0

/-- The default configuration with the font-autofit feedback enabled. -/
def cfg_autofit : Config :=
  { DEFAULT_CONFIG with enable_font_autofit := true }

/-- C1: the guard in `calculate_space_utilization` only covers a non-positive
container; a measured size of 0 against the positive clamped width 8 yields
utilization exactly 0, on which `adjust_font_size` divides by zero — so the
column pass aborts (`none`) on a worksheet whose only cell holds the
integer 0, refuting "the sizing core never raises". -/
theorem C1_zero_utilization_raises :
    calculate_text_width (.vint 0) 12 = 0 ∧
    calculate_space_utilization (calculate_text_width (.vint 0) 12) 8 = 0 ∧
    adjust_font_size 12 (calculate_space_utilization (calculate_text_width (.vint 0) 12) 8) =
      none ∧
    autofit_columns ws_zero cfg_autofit = none := by
  have h1 : calculate_text_width (.vint 0) 12 = 0 := by
    simp [calculate_text_width, Value.falsy]
  have h2 : calculate_space_utilization 0 8 = 0 := by
    norm_num [calculate_space_utilization]
  have h3 : adjust_font_size 12 0 = none := by
    norm_num [adjust_font_size]
  refine ⟨h1, by rw [h1]; exact h2, by rw [h1, h2]; exact h3, ?_⟩
  have hm : measure_column ws_zero cfg_autofit 1 = [⟨1, .vint 0, 0, 12⟩] := by
    simp only [measure_column, ws_zero, cfg_autofit, DEFAULT_CONFIG, List.range,
      List.range.loop, List.map, List.filterMap, effective_font_size]
    norm_num [calculate_text_width, Value.falsy]
  have hfw : column_final_width ws_zero cfg_autofit 1 = 8 := by
    rw [column_final_width, column_max_width, hm]
    norm_num [cfg_autofit, DEFAULT_CONFIG, List.foldl]
  have hone : autofit_one_column cfg_autofit 1 ws_zero = none := by
    rw [autofit_one_column,
      if_pos (show cfg_autofit.enable_font_autofit = true from Eq.refl _), hm, hfw,
      run_font_cells]
    dsimp only
    rw [h2, h3]
  rw [autofit_columns, if_neg (by decide : ¬ws_zero.max_row = 0)]
  have hL : (List.range ws_zero.max_col).map (· + 1) = [1] := Eq.refl _
  rw [hL, run_columns, hone]

/-- The two-row, one-column worksheet of the end-to-end scenario:
"A" in row 1, "中文" in row 2, no explicit fonts. -/
def ws_e2e : Worksheet where
  max_row := 2
  max_col := 1
  cell := fun r c =>
    if r = 1 ∧ c = 1 then ⟨some (.vstr [65]), none, none⟩
    else if r = 2 ∧ c = 1 then ⟨some (.vstr [20013, 25991]), none, none⟩
    else ⟨none, none, none⟩
  col_width := fun _ => 0
  row_height := fun _ => 0

/-- C7: the end-to-end scenario — raw widths 0.7 and 4.0, scaled 4.0 × 1.3 =
5.2, clamped up to the minimum width, so the column is assigned exactly 8. -/
theorem C7_end_to_end_scenario :
    calculate_text_width (.vstr [65]) 12 = 7 / 10 ∧
    calculate_text_width (.vstr [20013, 25991]) 12 = 4 ∧
    (4 : ℚ) * DEFAULT_CONFIG.width_factor = 26 / 5 ∧
    ∃ w, autofit_columns ws_e2e DEFAULT_CONFIG = some w ∧ w.col_width 1 = 8 := by
  refine ⟨?_, ?_, ?_, ?_⟩
  · norm_num [calculate_text_width, Value.falsy, Value.toText, text_units, get_char_type,
      CHAR_WIDTH, DEFAULT_CONFIG]
  · norm_num [calculate_text_width, Value.falsy, Value.toText, text_units, get_char_type,
      CHAR_WIDTH, DEFAULT_CONFIG]
  · norm_num [DEFAULT_CONFIG]
  · refine ⟨_, Eq.refl _, ?_⟩
    simp only [set_col_width_at]
    simp only [column_final_width, column_max_width, measure_column, ws_e2e,
      List.range, List.range.loop, List.map, List.filterMap, effective_font_size]
    norm_num [calculate_text_width, Value.falsy, Value.toText, text_units, get_char_type,
      CHAR_WIDTH, DEFAULT_CONFIG, List.foldl]

/-- A configuration with limits disabled and a negative width factor. -/
def cfg_neg : Config :=
  { DEFAULT_CONFIG with enable_size_limits := false, width_factor := -1 }

/-- A configuration whose clamp interval `[10, 5]` is empty. -/
def cfg_minmax : Config :=
  { DEFAULT_CONFIG with min_width := 10, max_width := 5 }

/-- C6, counterexample: with limits disabled and width factor −1 the written
width of the "A" column is −0.7, refuting "written widths are never
negative"; and with min_width = 10 > max_width = 5 the written width 10
lies outside `[min_width, max_width]`, refuting unconditional clamp
membership. -/
theorem C6_clamp_cex :
    (∃ w1, autofit_columns ws_A cfg_neg = some w1 ∧ w1.col_width 1 < 0) ∧
    (∃ w1, autofit_columns ws_A cfg_minmax = some w1 ∧
      ¬(cfg_minmax.min_width ≤ w1.col_width 1 ∧ w1.col_width 1 ≤ cfg_minmax.max_width)) := by
  have hmA : ∀ cfg : Config, cfg.default_font_size = 12 →
      measure_column ws_A cfg 1 = [⟨1, .vstr [65], 7 / 10, 12⟩] := by
    intro cfg hdfs
    simp only [measure_column, ws_A, List.range, List.range.loop, List.map,
      List.filterMap, effective_font_size, hdfs]
    norm_num [calculate_text_width, Value.falsy, Value.toText, text_units, get_char_type,
      CHAR_WIDTH, DEFAULT_CONFIG]
  constructor
  · refine ⟨_, Eq.refl _, ?_⟩
    simp only [set_col_width_at]
    rw [column_final_width, column_max_width, hmA cfg_neg (Eq.refl _)]
    norm_num [cfg_neg, DEFAULT_CONFIG, List.foldl]
  · refine ⟨_, Eq.refl _, ?_⟩
    simp only [set_col_width_at]
    rw [column_final_width, column_max_width, hmA cfg_minmax (Eq.refl _)]
    norm_num [cfg_minmax, DEFAULT_CONFIG, List.foldl]

/-- C6, amended: every written column width (resp. row height) is the clamp
of a non-negatively-measured raw value when limits are enabled — so it lies
in `[min, max]` provided the interval is non-empty, and is non-negative
provided the lower bound is — and is the unclamped raw scaled value when
limits are disabled, non-negative provided the scale factor is. -/
theorem C6_clamp_behavior (ws ws2 : Worksheet) (cfg : Config) (w1 w2 : Worksheet) (c r : Nat)
    (h1 : autofit_columns ws cfg = some w1) (hrow : 1 ≤ ws.max_row)
    (hc1 : 1 ≤ c) (hc2 : c ≤ ws.max_col)
    (h2 : autofit_rows ws2 cfg = some w2)
    (hr1 : 1 ≤ r) (hr2 : r ≤ ws2.max_row) :
    (cfg.enable_size_limits = true → cfg.min_width ≤ cfg.max_width →
      cfg.min_width ≤ w1.col_width c ∧ w1.col_width c ≤ cfg.max_width) ∧
    (cfg.enable_size_limits = true → 0 ≤ cfg.min_width → 0 ≤ w1.col_width c) ∧
    (cfg.enable_size_limits = false →
      ∃ m, 0 ≤ m ∧ w1.col_width c = m * cfg.width_factor) ∧
    (cfg.enable_size_limits = false → 0 ≤ cfg.width_factor → 0 ≤ w1.col_width c) ∧
    (cfg.enable_size_limits = true → cfg.min_height ≤ cfg.max_height →
      cfg.min_height ≤ w2.row_height r ∧ w2.row_height r ≤ cfg.max_height) ∧
    (cfg.enable_size_limits = true → 0 ≤ cfg.min_height → 0 ≤ w2.row_height r) ∧
    (cfg.enable_size_limits = false →
      ∃ m, 0 ≤ m ∧ w2.row_height r = m * cfg.height_factor * 15) ∧
    (cfg.enable_size_limits = false → 0 ≤ cfg.height_factor → 0 ≤ w2.row_height r) := by
  have hws : width_spec cfg (w1.col_width c) := by
    rw [autofit_columns, if_neg (by omega)] at h1
    exact (run_columns_width cfg _ _ _ h1).2 c (mem_one_to.mpr ⟨hc1, hc2⟩)
  have hhs : height_spec cfg (w2.row_height r) := by
    rw [autofit_rows] at h2
    exact (run_rows_height cfg _ _ _ h2).2 r (mem_one_to.mpr ⟨hr1, hr2⟩)
  obtain ⟨m, hm, hmeq⟩ := hws
  obtain ⟨n, hn, hneq⟩ := hhs
  refine ⟨?_, ?_, ?_, ?_, ?_, ?_, ?_, ?_⟩
  · intro hsl hb
    rw [hmeq, if_pos hsl]
    exact ⟨le_max_left _ _, max_le hb (min_le_left _ _)⟩
  · intro hsl h0
    rw [hmeq, if_pos hsl]
    exact le_trans h0 (le_max_left _ _)
  · intro hsl
    exact ⟨m, hm, by rw [hmeq, if_neg (by rw [hsl]; exact Bool.false_ne_true)]⟩
  · intro hsl h0
    rw [hmeq, if_neg (by rw [hsl]; exact Bool.false_ne_true)]
    exact mul_nonneg hm h0
  · intro hsl hb
    rw [hneq, if_pos hsl]
    exact ⟨le_max_left _ _, max_le hb (min_le_left _ _)⟩
  · intro hsl h0
    rw [hneq, if_pos hsl]
    exact le_trans h0 (le_max_left _ _)
  · intro hsl
    exact ⟨n, hn, by rw [hneq, if_neg (by rw [hsl]; exact Bool.false_ne_true)]⟩
  · intro hsl h0
    rw [hneq, if_neg (by rw [hsl]; exact Bool.false_ne_true)]
    exact mul_nonneg (mul_nonneg hn h0) (by norm_num)

/-- C6, witness: the amended clamp behavior applied to the one-cell "A"
worksheet under the default configuration, for column 1 and row 1. -/
theorem C6_clamp_behavior_witness :
    ∃ w1 w2,
      autofit_columns ws_A DEFAULT_CONFIG = some w1 ∧
      autofit_rows ws_A DEFAULT_CONFIG = some w2 ∧
      ((DEFAULT_CONFIG.enable_size_limits = true →
          DEFAULT_CONFIG.min_width ≤ DEFAULT_CONFIG.max_width →
          DEFAULT_CONFIG.min_width ≤ w1.col_width 1 ∧
          w1.col_width 1 ≤ DEFAULT_CONFIG.max_width) ∧
       (DEFAULT_CONFIG.enable_size_limits = true → 0 ≤ DEFAULT_CONFIG.min_width →
          0 ≤ w1.col_width 1) ∧
       (DEFAULT_CONFIG.enable_size_limits = false →
          ∃ m, 0 ≤ m ∧ w1.col_width 1 = m * DEFAULT_CONFIG.width_factor) ∧
       (DEFAULT_CONFIG.enable_size_limits = false → 0 ≤ DEFAULT_CONFIG.width_factor →
          0 ≤ w1.col_width 1) ∧
       (DEFAULT_CONFIG.enable_size_limits = true →
          DEFAULT_CONFIG.min_height ≤ DEFAULT_CONFIG.max_height →
          DEFAULT_CONFIG.min_height ≤ w2.row_height 1 ∧
          w2.row_height 1 ≤ DEFAULT_CONFIG.max_height) ∧
       (DEFAULT_CONFIG.enable_size_limits = true → 0 ≤ DEFAULT_CONFIG.min_height →
          0 ≤ w2.row_height 1) ∧
       (DEFAULT_CONFIG.enable_size_limits = false →
          ∃ m, 0 ≤ m ∧ w2.row_height 1 = m * DEFAULT_CONFIG.height_factor * 15) ∧
       (DEFAULT_CONFIG.enable_size_limits = false → 0 ≤ DEFAULT_CONFIG.height_factor →
          0 ≤ w2.row_height 1)) := by
  refine ⟨_, _, Eq.refl _, Eq.refl _, ?_⟩
  exact C6_clamp_behavior ws_A ws_A DEFAULT_CONFIG _ _ 1 1 (Eq.refl _) (by decide)
    (by decide) (by decide) (Eq.refl _) (by decide) (by decide)

/-- C8: with font autofit disabled, running the column pass a second time on
the worksheet produced by the first run writes the same width into every
column — the first run changes only alignment styling and column widths,
neither of which the measuring loop reads. -/
theorem C8_column_pass_idempotent (ws : Worksheet) (cfg : Config) (w1 w2 : Worksheet)
    (hfa : cfg.enable_font_autofit = false)
    (h1 : autofit_columns ws cfg = some w1)
    (h2 : autofit_columns w1 cfg = some w2) :
    ∀ c, w2.col_width c = w1.col_width c := by
  unfold autofit_columns at h1 h2
  by_cases hm : ws.max_row = 0
  · rw [if_pos hm] at h1
    obtain rfl := Option.some_inj.mp h1
    rw [if_pos hm] at h2
    obtain rfl := Option.some_inj.mp h2
    exact fun c => Eq.refl _
  · rw [if_neg hm] at h1
    obtain ⟨hmeas1, hpres1, hval1⟩ := run_columns_meas cfg hfa _ _ _ h1
    rw [if_neg (by rw [hmeas1.1]; exact hm), hmeas1.2.1] at h2
    obtain ⟨hmeas2, hpres2, hval2⟩ := run_columns_meas cfg hfa _ _ _ h2
    intro c
    by_cases hc : c ∈ (List.range ws.max_col).map (· + 1)
    · rw [hval2 (nodup_one_to _) c hc, hval1 (nodup_one_to _) c hc,
        column_final_width_congr hmeas1 cfg c]
    · rw [hpres2 c hc]
/-- C8, witness: both runs on the one-cell "A" worksheet under the default
configuration produce the same column widths. -/
theorem C8_column_pass_idempotent_witness :
    ∃ w1 w2,
      autofit_columns ws_A DEFAULT_CONFIG = some w1 ∧
      autofit_columns w1 DEFAULT_CONFIG = some w2 ∧
      ∀ c, w2.col_width c = w1.col_width c := by
  refine ⟨_, _, Eq.refl _, Eq.refl _, ?_⟩
  exact C8_column_pass_idempotent ws_A DEFAULT_CONFIG _ _ (Eq.refl _) (Eq.refl _) (Eq.refl _)

/-- C5: whenever the row pass completes, every cell whose font it changed
carries a new explicit size at which the cell's text re-measures to at most
0.9 of the cell's column width — the width finalized before the row pass
(the pass never touches column widths); a cell failing the 0.9 check keeps
its previous font. Stated over every post-column-pass worksheet `ws1`. -/
theorem C5_row_font_guard (cfg : Config) (ws1 ws2 : Worksheet)
    (_hfa : cfg.enable_font_autofit = true)
    (h : autofit_rows ws1 cfg = some ws2)
    (r c : Nat)
    (hch : (ws2.cell r c).font ≠ (ws1.cell r c).font) :
    ∃ ns nm v, (ws2.cell r c).font = some ⟨some ns, nm⟩ ∧
      (ws1.cell r c).value = some v ∧
      calculate_text_width v ns ≤ 9 / 10 * ws1.col_width c := by
  rw [autofit_rows] at h
  exact (run_rows_guard cfg _ _ _ h).2.2 r c hch

/-- A one-cell "A" worksheet whose column width is already finalized at 8. -/
def wsW : Worksheet where
  max_row := 1
  max_col := 1
  cell := fun r c =>
    if r = 1 ∧ c = 1 then ⟨some (.vstr [65]), none, none⟩ else ⟨none, none, none⟩
  col_width := fun _ => 8
  row_height := fun _ => 0

/-- Font autofit enabled with a large minimum row height, so the row-pass
utilization drops below 0.5 and a font change is actually committed. -/
def cfg_rows : Config :=
  { DEFAULT_CONFIG with enable_font_autofit := true, min_height := 100 }

/-- C5, witness: on `wsW` the row pass grows the font of cell (1, 1) from 12
to 18, and the guard holds there. -/
theorem C5_row_font_guard_witness :
    ∃ w2, autofit_rows wsW cfg_rows = some w2 ∧
      (w2.cell 1 1).font ≠ (wsW.cell 1 1).font ∧
      ∃ ns nm v, (w2.cell 1 1).font = some ⟨some ns, nm⟩ ∧
        (wsW.cell 1 1).value = some v ∧
        calculate_text_width v ns ≤ 9 / 10 * wsW.col_width 1 := by
  have hth : calculate_text_height (.vstr [65]) 8 12 = 2 := by
    have hl : line_count_for [65] 8 12 = 1 := by
      rw [line_count_for_eq]
      rw [if_neg (by simp), if_pos (by norm_num : (8 : ℚ) > 0)]
      have hq : calculate_text_width (.vstr [65]) 12 / ((8 : ℚ) * (9 / 10)) = 7 / 72 := by
        norm_num [calculate_text_width, Value.falsy, Value.toText, text_units,
          get_char_type, CHAR_WIDTH, DEFAULT_CONFIG]
      rw [hq]
      have hc : ⌈(7 : ℚ) / 72⌉ = 1 := by
        rw [Int.ceil_eq_iff]
        constructor <;> norm_num
      rw [hc]
      exact max_self 1
    rw [calculate_text_height, if_neg (by simp [Value.falsy])]
    dsimp only
    simp only [Value.toText, splitOnNewline, List.map, hl, List.sum_cons, List.sum_nil]
    norm_num [DEFAULT_CONFIG]
  have hmr : measure_row wsW cfg_rows 1 = [⟨1, .vstr [65], 2, 12, 8⟩] := by
    simp only [measure_row, wsW, cfg_rows, DEFAULT_CONFIG, List.range, List.range.loop,
      List.map, List.filterMap, effective_font_size]
    norm_num [hth]
  have hfh : row_final_height wsW cfg_rows 1 = 100 := by
    rw [row_final_height, row_max_height, hmr]
    norm_num [cfg_rows, DEFAULT_CONFIG, List.foldl]
  have hu : calculate_space_utilization ((2 : ℚ) * 15) 100 = 3 / 10 := by
    norm_num [calculate_space_utilization]
  have hadj : adjust_font_size 12 (3 / 10) = some 18 := by
    norm_num [adjust_font_size]
  have hct : cell_text_width (set_row_height wsW 1 100) 1 1 18 = 21 / 20 := by
    unfold cell_text_width
    rw [set_row_height_cell]
    norm_num [wsW, calculate_text_width, Value.falsy, Value.toText, text_units,
      get_char_type, CHAR_WIDTH, DEFAULT_CONFIG]
  have hguard : calculate_space_utilization ((21 : ℚ) / 20) 8 ≤ 9 / 10 := by
    norm_num [calculate_space_utilization]
  have hone : autofit_one_row cfg_rows 1 wsW =
      some (update_cell_font (set_row_height wsW 1 100) 1 1 18) := by
    rw [autofit_one_row,
      if_pos (show cfg_rows.enable_font_autofit = true from Eq.refl _), hmr, hfh,
      run_font_row_cells]
    dsimp only
    rw [hu, hadj]
    dsimp only
    rw [if_pos (by norm_num : |(18 : ℚ) - 12| > 1 / 10), hct, if_pos hguard,
      run_font_row_cells]
  have hrun : autofit_rows wsW cfg_rows =
      some (update_cell_font (set_row_height wsW 1 100) 1 1 18) := by
    rw [autofit_rows]
    have hL : (List.range wsW.max_row).map (· + 1) = [1] := Eq.refl _
    rw [hL, run_rows, hone]
    dsimp only
    rw [run_rows]
  have hch : ((update_cell_font (set_row_height wsW 1 100) 1 1 18).cell 1 1).font ≠
      (wsW.cell 1 1).font := by
    rw [update_cell_font_font_at]
    simp [wsW]
  exact ⟨_, hrun, hch, C5_row_font_guard cfg_rows wsW _ (Eq.refl _) hrun 1 1 hch⟩

/-- C10: non-None but falsy values (0, "", False) measure width 0 and height
1 at every font size and column width, yet both passes treat the cell as
non-empty — it appears in the column's measured list with width 0 (hence in
the font-autofit loop), does not move the column's running maximum, gets the
configured alignment styling, and appears in the row's measured list with
height 1. -/
theorem C10_falsy_values (v : Value) (fs cw : ℚ) (ws : Worksheet) (cfg : Config) (r c : Nat)
    (hf : v.falsy = true)
    (hr1 : 1 ≤ r) (hr2 : r ≤ ws.max_row) (hc1 : 1 ≤ c) (hc2 : c ≤ ws.max_col)
    (hv : (ws.cell r c).value = some v)
    (hal : cfg.enable_cell_alignment = true) :
    calculate_text_width v fs = 0 ∧
    calculate_text_height v cw fs = 1 ∧
    (⟨r, v, 0, effective_font_size (ws.cell r c) cfg⟩ : MeasuredCol) ∈
      measure_column ws cfg c ∧
    ((style_column ws cfg c).cell r c).alignment =
      some ⟨cfg.horizontal_alignment, cfg.vertical_alignment, cfg.enable_cell_wrap⟩ ∧
    column_max_width ws cfg c =
      (((measure_column ws cfg c).filter (fun e => e.row != r)).map (·.tw)).foldl max 0 ∧
    (⟨c, v, 1, effective_font_size (ws.cell r c) cfg, ws.col_width c⟩ : MeasuredRow) ∈
      measure_row ws cfg r := by
  have hw0 : ∀ s : ℚ, calculate_text_width v s = 0 := fun s => by
    rw [calculate_text_width, if_pos hf]
  have hh1 : ∀ w s : ℚ, calculate_text_height v w s = 1 := fun w s => by
    rw [calculate_text_height, if_pos hf]
  refine ⟨hw0 fs, hh1 cw fs, ?_, ?_, ?_, ?_⟩
  · unfold measure_column
    refine List.mem_filterMap.mpr ⟨r, mem_one_to.mpr ⟨hr1, hr2⟩, ?_⟩
    rw [hv]
    dsimp only
    rw [hw0]
  · rw [style_column, if_pos hal]
    dsimp only
    rw [if_pos ⟨Eq.refl c, hr1, hr2, by rw [hv]; exact Eq.refl _⟩]
  · symm
    refine foldl_max_filter (fun e : MeasuredCol => e.tw)
      (fun e : MeasuredCol => e.row != r) _ 0 ?_
    intro x hx hpx
    have hxr : x.row = r := by simpa using hpx
    obtain ⟨hval, -, htw, -, -⟩ := measure_column_mem hx
    rw [hxr, hv] at hval
    obtain hveq : v = x.val := Option.some_inj.mp hval
    show x.tw ≤ 0
    rw [htw, ← hveq, hw0]
  · unfold measure_row
    refine List.mem_filterMap.mpr ⟨c, mem_one_to.mpr ⟨hc1, hc2⟩, ?_⟩
    rw [hv]
    dsimp only
    rw [hh1]

/-- C10, witness: the falsy-value behavior applied to the one-cell worksheet
holding the integer 0, under the default configuration. -/
theorem C10_falsy_values_witness :
    Value.falsy (.vint 0) = true ∧
    (ws_zero.cell 1 1).value = some (.vint 0) ∧
    (calculate_text_width (.vint 0) 5 = 0 ∧
     calculate_text_height (.vint 0) 7 5 = 1 ∧
     (⟨1, .vint 0, 0, effective_font_size (ws_zero.cell 1 1) DEFAULT_CONFIG⟩ : MeasuredCol) ∈
       measure_column ws_zero DEFAULT_CONFIG 1 ∧
     ((style_column ws_zero DEFAULT_CONFIG 1).cell 1 1).alignment =
       some ⟨DEFAULT_CONFIG.horizontal_alignment, DEFAULT_CONFIG.vertical_alignment,
         DEFAULT_CONFIG.enable_cell_wrap⟩ ∧
     column_max_width ws_zero DEFAULT_CONFIG 1 =
       (((measure_column ws_zero DEFAULT_CONFIG 1).filter
          (fun e => e.row != 1)).map (·.tw)).foldl max 0 ∧
     (⟨1, .vint 0, 1, effective_font_size (ws_zero.cell 1 1) DEFAULT_CONFIG,
        ws_zero.col_width 1⟩ : MeasuredRow) ∈ measure_row ws_zero DEFAULT_CONFIG 1) :=
  ⟨Eq.refl _, Eq.refl _,
   C10_falsy_values (.vint 0) 5 7 ws_zero DEFAULT_CONFIG 1 1 (Eq.refl _)
     (Nat.le_refl 1) (Nat.le_refl 1) (Nat.le_refl 1) (Nat.le_refl 1)
     (Eq.refl _) (Eq.refl _)⟩

end Autofit
